import Mathlib

/-!
Verification of the queue-crawler DNS crawler against its specification.

The repository is a cooperative (asyncio) DNS crawler.  This file gives a
shallow embedding of the parts of the code that the checked claims are
about:

* `src/dns_utils.py`    : name normalization, parent domains, superdomain
  tests and `closest_superdomain`;
* `src/nsr.py`          : `NSR` and `NSRBlock` (keys, equality, merge);
* `src/dns_parser.py`   : `parse_dns_response_NS` and `DNSRelationMap`;
* `src/async_queue.py`  : the call-coalescing `AsyncQueue`, embedded as a
  small-step trace semantics over an abstract state;
* `src/resolution_queue.py` : the cycle detector `_in_resolution_tree` /
  `_queue_resolution`, the `load_query_target_auth_block` phase of the
  comprehensive `AuthNSResolution` / `IPResolution`, and the `resolve`
  phases of both.

Python strings are modelled as Lean `String`s, but every string operation
is implemented over `String.data` (lists of characters) so that all
definitions evaluate inside the kernel.  Mutable object state is passed
explicitly; `await`ed sub-results enter as explicit oracle arguments;
Python exceptions are modelled with `Except`/`Option`.
-/

/-! ## Character and string primitives (Python `str` operations) -/

/-- Python `str.lower()` (restricted to the ASCII case mapping,
which is all the crawler's inputs use). -/
def strLower (s : String) : String := String.mk (s.data.map Char.toLower)

/-- Whitespace characters stripped by Python `str.strip()`. -/
def isWs (c : Char) : Bool := c == ' ' || c == '\t' || c == '\n' || c == '\r'

/-- Python `str.strip()`: drop whitespace from both ends. -/
def pyStrip (s : String) : String :=
  String.mk (((s.data.dropWhile isWs).reverse.dropWhile isWs).reverse)

/-- Python `s.endswith(post)`: `post` is a suffix of `s` as a character
sequence. -/
def strEndsWith (s post : String) : Bool := decide (post.data <:+ s.data)

/-- Split a character list at every occurrence of `sep`
(Python `str.split(sep)` for a single-character separator). -/
def chSplit (sep : Char) : List Char → List (List Char)
  | [] => [[]]
  | c :: rest =>
    let r := chSplit sep rest
    if c = sep then [] :: r
    else
      match r with
      | [] => [[c]]
      | g :: gs => (c :: g) :: gs

/-- Python `domain.split(".")`. -/
def splitDots (s : String) : List String := (chSplit '.' s.data).map String.mk

/-- Python `sep.join(parts)`. -/
def joinWith (sep : String) : List String → String
  | [] => ""
  | [s] => s
  | s :: rest => s ++ sep ++ joinWith sep rest

/-- Lexicographic (code-point) order on character lists, matching Python
string comparison. -/
def chLe : List Char → List Char → Bool
  | [], _ => true
  | _ :: _, [] => false
  | a :: as0, b :: bs0 =>
    if a = b then chLe as0 bs0 else decide (a < b)

/-- Python `s1 <= s2` on strings. -/
def strLe (a b : String) : Bool := chLe a.data b.data

/-- Insert into a sorted list of strings (ascending). -/
def insertSorted (x : String) : List String → List String
  | [] => [x]
  | y :: ys => if strLe x y then x :: y :: ys else y :: insertSorted x ys

/-- Python `sorted(list_of_strings)`. -/
def sortStrings (l : List String) : List String := l.foldr insertSorted []

/-- Append an element to a list unless an equal one is already present
(the effect of inserting into a Python `set`/`dict`, keeping insertion
order for iteration). -/
def addOnce [BEq α] (l : List α) (x : α) : List α :=
  if l.contains x then l else l ++ [x]

/-- Lookup in an insertion-ordered association list (Python `dict`). -/
def assocFind [BEq κ] (m : List (κ × α)) (k : κ) : Option α :=
  match m with
  | [] => none
  | (k0, v) :: rest => if k0 == k then some v else assocFind rest k

/-- Add `v` to the set stored under `k`, creating the entry if absent
(Python `defaultdict(set)[k].add(v)` / `Host.add`). -/
def assocAddVal (m : List (String × List String)) (k v : String) :
    List (String × List String) :=
  match m with
  | [] => [(k, [v])]
  | (k0, vs) :: rest =>
    if k0 == k then (k0, addOnce vs v) :: rest else (k0, vs) :: assocAddVal rest k v

/-! ## `src/dns_utils.py` -/

/-- `DNSUtils.normalize_domain`.  The Python body is
`domain = domain.lower().strip(); if domain[-1] != ".": domain += "."`.
Indexing `domain[-1]` raises `IndexError` when the stripped string is
empty, so the embedding returns `none` there. -/
def normalize_domain (domain : String) : Option String :=
  match (pyStrip (strLower domain)).data.getLast? with
  | none => none
  | some c =>
    if c = '.' then some (pyStrip (strLower domain))
    else some (pyStrip (strLower domain) ++ ".")

/-- `DNSUtils.get_parent_domain`: drop the leftmost label
(empty labels are filtered, the result always carries a trailing dot). -/
def get_parent_domain (domain : String) : String :=
  let labelList := (splitDots domain).filter (fun l => l.length > 0)
  joinWith "." (labelList.drop 1) ++ "."

/-- `DNSUtils.is_superdomain`.  Both arguments are normalized first; a
normalization failure (empty string) propagates as `none` (IndexError). -/
def is_superdomain (domain superdomain : String) (includeIdentical : Bool) :
    Option Bool :=
  match normalize_domain domain, normalize_domain superdomain with
  | some d, some sd =>
    some (if sd == "." || (includeIdentical && d == sd) then true
          else strEndsWith d ("." ++ sd))
  | _, _ => none

/-- The filtering comprehension in `DNSUtils.closest_superdomain`:
`[(len(s), s) for s in superdomain_list if is_superdomain(...)]`.
`none` means one of the `is_superdomain` calls raised. -/
def filterSuper (domain : String) (includeIdentical : Bool) :
    List String → Option (List (Nat × String))
  | [] => some []
  | s :: rest =>
    match is_superdomain domain s includeIdentical with
    | none => none
    | some b =>
      match filterSuper domain includeIdentical rest with
      | none => none
      | some l => some (if b then (s.length, s) :: l else l)

/-- Python tuple comparison `(len, str) >= (len, str)` used by
`sorted(..., reverse=True)`. -/
def pairGe (a b : Nat × String) : Bool :=
  decide (b.1 < a.1) || (a.1 == b.1 && strLe b.2 a.2)

/-- Maximum of a nonempty list of `(length, string)` pairs in the Python
tuple order; `sorted(l, reverse=True)[0]` returns exactly this element. -/
def maxPair (x : Nat × String) : List (Nat × String) → Nat × String
  | [] => x
  | y :: ys => maxPair (if pairGe x y then x else y) ys

/-- `DNSUtils.closest_superdomain`.  The outer `Option` is exception
propagation from `normalize_domain`; the inner `Option` is the Python
`None` returned when no candidate superdomain survives the filter. -/
def closest_superdomain (domain : String) (superdomainList : List String)
    (includeIdentical : Bool) : Option (Option String) :=
  match filterSuper domain includeIdentical superdomainList with
  | none => none
  | some [] => some none
  | some (x :: xs) => some (some (maxPair x xs).2)

/-! ## `src/nsr.py` : NSR and NSRBlock -/

/-- `NSR`: a nameserver hostname with its known IPs
(`host.py`'s `NamedHost` carries the same two fields). -/
structure NSR where
  hostname : String
  ips : List String
deriving DecidableEq, Repr

/-- `NSR._key()`: `f"{hostname.lower()}/{'_'.join(sorted(ips))}"`. -/
def nsrKey (n : NSR) : String :=
  strLower n.hostname ++ "/" ++ joinWith "_" (sortStrings n.ips)

/-- `NSR.__eq__`: equality of `_key()` strings. -/
def nsrEq (a b : NSR) : Bool := nsrKey a == nsrKey b

/-- `NSR.__hash__` is `hash(self._key)` — the *bound method* `self._key`,
not the string `self._key()`.  CPython hashes a bound method by hashing
its receiver, which re-enters `NSR.__hash__`, so evaluation never
terminates (`RecursionError`).  `fuel` counts the remaining recursion
depth; each unfolding consumes one level and produces no value. -/
def nsrHashEval (fuel : Nat) (n : NSR) : Option Nat :=
  match fuel with
  | 0 => none
  | fuel' + 1 => nsrHashEval fuel' n

/-- `NSRBlock`: a named, insertion-ordered set of `NSR`s; `nsrs` models
the `_nsr_data` dictionary values (the `nsr_list` property). -/
structure NSRBlock where
  name : String
  nsrs : List NSR
deriving DecidableEq, Repr

/-- `NSRBlock.add`: insert unless an NSR with the same `_key()` is
already stored. -/
def blockAdd (b : NSRBlock) (n : NSR) : NSRBlock :=
  if (b.nsrs.map nsrKey).contains (nsrKey n) then b
  else ⟨b.name, b.nsrs ++ [n]⟩

/-- `NSRBlock.__init__(name, nsr_list)`: add each NSR in order. -/
def mkNSRBlock (name : String) (l : List NSR) : NSRBlock :=
  l.foldl blockAdd ⟨name, []⟩

/-- `NSRBlock.merge(other, join_on)`; `join_on` is the literal Python
string argument (`"outer"`, `"left"`, `"right"`, `"inner"`). -/
def nsrBlockMerge (b other : NSRBlock) (joinOn : String) : NSRBlock :=
  let curNames := b.nsrs.map (fun n => n.hostname)
  let othNames := other.nsrs.map (fun n => n.hostname)
  let nb : NSRBlock := ⟨b.name, []⟩
  let nb := b.nsrs.foldl
    (fun acc n =>
      if joinOn == "outer" || joinOn == "left" || othNames.contains n.hostname
      then blockAdd acc n else acc) nb
  other.nsrs.foldl
    (fun acc n =>
      if joinOn == "outer" || joinOn == "right" || curNames.contains n.hostname
      then blockAdd acc n else acc) nb

/-- `DNSUtils.get_root_nsr_block()`. -/
def get_root_nsr_block : NSRBlock :=
  mkNSRBlock "." [⟨"a.root-servers.net.", ["198.41.0.4"]⟩]

/-! ## `src/resolver.py` / `src/dns_parser.py` : records and the relation map -/

/-- `RR`: the `namedtuple('RR', ['name', 'ttl', 'rclass', 'rtype', 'rdata'])`. -/
structure RR where
  name : String
  ttl : String
  rclass : String
  rtype : String
  rdata : String
deriving DecidableEq, Repr

/-- A `DNSResponse` as consumed by the resolution logic: wire status
(`"SUCCESS"`/`"TIMEOUT"`), rcode text, and the three record sections.
Each section models the contents of an `RRCollection` (a set of records);
`get_rtype_records` filters a section by record type. -/
structure DNSResp where
  status : String
  rcode : String
  answer : List RR
  authority : List RR
  additional : List RR
deriving DecidableEq, Repr

/-- `RRCollection.get_rtype_records(rtype)` on one section. -/
def sectionRtype (l : List RR) (t : String) : List RR :=
  l.filter (fun rr => rr.rtype == t)

/-- `DNSRelationMap`: `_host_nsr` maps a name to the NS target names seen
for it, `_hosts` maps a nameserver name to its A IPs, `records` is the
flat `_records` collection (deduplicated). -/
structure DNSRelationMap where
  hostNsr : List (String × List String)
  hosts : List (String × List String)
  records : List RR
deriving DecidableEq, Repr

/-- `DNSRelationMap.store`. -/
def drmStore (m : DNSRelationMap) (rr : RR) : DNSRelationMap :=
  ⟨m.hostNsr, m.hosts, addOnce m.records rr⟩

/-- `DNSRelationMap.storeNS`. -/
def drmStoreNS (m : DNSRelationMap) (rr : RR) : DNSRelationMap :=
  let m := drmStore m rr
  ⟨assocAddVal m.hostNsr rr.name rr.rdata, m.hosts, m.records⟩

/-- `DNSRelationMap.storeA`. -/
def drmStoreA (m : DNSRelationMap) (rr : RR) : DNSRelationMap :=
  let m := drmStore m rr
  ⟨m.hostNsr, assocAddVal m.hosts rr.name rr.rdata, m.records⟩

/-- `DNSParser.parse_dns_response_NS`: fold NS, then A, then SOA records
of all three sections into a fresh relation map. -/
def parse_dns_response_NS (r : DNSResp) : DNSRelationMap :=
  let m0 : DNSRelationMap := ⟨[], [], []⟩
  let m1 := (sectionRtype r.answer "ns" ++ sectionRtype r.authority "ns"
             ++ sectionRtype r.additional "ns").foldl drmStoreNS m0
  let m2 := (sectionRtype r.answer "a" ++ sectionRtype r.authority "a"
             ++ sectionRtype r.additional "a").foldl drmStoreA m1
  (sectionRtype r.answer "soa" ++ sectionRtype r.authority "soa"
   ++ sectionRtype r.additional "soa").foldl drmStore m2

/-- `DNSRelationMap.hosts_with_nameservers()`. -/
def hosts_with_nameservers (m : DNSRelationMap) : List String :=
  m.hostNsr.map (fun e => e.1)

/-- `DNSRelationMap.get_rtype_records(rtype)`. -/
def drm_get_rtype_records (m : DNSRelationMap) (t : String) : List RR :=
  sectionRtype m.records t

/-- `DNSRelationMap.getNSRBlock(hostname)`, with the `Optional[str]`
argument the resolve path passes (`None not in dict` is `False`, so the
call returns `None`). -/
def getNSRBlock (m : DNSRelationMap) (hostname : Option String) :
    Option NSRBlock :=
  match hostname with
  | none => none
  | some hn =>
    match assocFind m.hostNsr hn with
    | none => none
    | some nsrNames =>
      some (nsrNames.foldl
        (fun b nm =>
          blockAdd b (match assocFind m.hosts nm with
            | some ips => ⟨nm, ips⟩
            | none => ⟨nm, []⟩)) ⟨hn, []⟩)

/-! ## `src/resolution_queue.py` : response codes -/

/-- `ResolutionResponseCode`. -/
inductive RCode where
  | success
  | warning
  | error
  | loopDetected
deriving DecidableEq, Repr

/-- The `data` payload of a `ResolutionResponse`: `None`, an `NSRBlock`
(AuthNS results), or a list of IPs (IP results). -/
inductive RData where
  | noData
  | block (b : NSRBlock)
  | ips (l : List String)
deriving DecidableEq, Repr

/-- `ResolutionResponse`. -/
structure RResp where
  status : RCode
  data : RData
deriving DecidableEq, Repr

/-- Python exceptions the embedded code can raise. -/
inductive PyErr where
  | keyError
  | indexError
  | unboundLocal
deriving DecidableEq, Repr

/-- `QueryQueueResponse.data`: mapping from rtype to the `DNSResponse`
for that rtype. -/
def dataLookup (qdata : List (String × DNSResp)) (t : String) : Option DNSResp :=
  assocFind qdata t

/-! ## `src/async_queue.py` : AsyncQueue as a trace semantics

`queue_call` runs on the single-threaded asyncio loop, so each of its
code regions between `await` points executes atomically.  The atomic
regions become events:

* `startRun id`    — a caller finds `id` neither active nor done, creates
  the event, registers it in `active_calls` and starts awaiting its
  producer (lines 31-38 of `async_queue.py`, the guard plus insertion,
  with no `await` in between);
* `finishRun id v` — the producer returns `v`; the caller stores it in
  `past_calls`, pops `active_calls`, sets the event and returns
  `past_calls[id] = v` (lines 39-42 and 45, again with no `await`);
* `startWait id`   — a caller finds `id` active and begins awaiting the
  stored event (lines 31-33);
* `finishWait id v`— an awaiting caller resumes (possible only once the
  event is set, i.e. once `past_calls[id]` is populated) and returns
  `past_calls[id] = v` (line 45);
* `readDone id v`  — a caller finds `id` inactive and finished and
  returns `past_calls[id] = v` immediately, its producer discarded
  (lines 31, 34, 43-45).

Values returned by producers are abstracted as naturals. -/

inductive AQEvent where
  | startRun (id : String)
  | finishRun (id : String) (v : Nat)
  | startWait (id : String)
  | finishWait (id : String) (v : Nat)
  | readDone (id : String) (v : Nat)
deriving DecidableEq, Repr

/-- The shared state of one `AsyncQueue`: which ids have an in-flight
marker in `active_calls`, and the `past_calls` cache. -/
structure AQState where
  active : String → Bool
  past : String → Option Nat

/-- The empty `AsyncQueue` built by `__init__`. -/
def aqInit : AQState := ⟨fun _ => false, fun _ => none⟩

/-- One atomic region of `queue_call`; `none` when the event's guard does
not hold in `s` (the event cannot occur there). -/
def aqStep (s : AQState) : AQEvent → Option AQState
  | .startRun i =>
    if s.active i = false ∧ s.past i = none then
      some ⟨fun x => if x = i then true else s.active x, s.past⟩
    else none
  | .finishRun i v =>
    if s.active i = true then
      some ⟨fun x => if x = i then false else s.active x,
            fun x => if x = i then some v else s.past x⟩
    else none
  | .startWait i => if s.active i = true then some s else none
  | .finishWait i v => if s.past i = some v then some s else none
  | .readDone i v =>
    if s.active i = false ∧ s.past i = some v then some s else none

/-- Run a whole event trace from `s`. -/
def aqRun (s : AQState) : List AQEvent → Option AQState
  | [] => some s
  | e :: es =>
    match aqStep s e with
    | none => none
    | some s2 => aqRun s2 es

/-- Does this event run the producer for `id`? -/
def isRunOf (id : String) : AQEvent → Bool
  | .startRun i => i == id
  | _ => false

/-- Number of producer executions for `id` in a trace. -/
def countRun (id : String) (es : List AQEvent) : Nat :=
  (es.filter (isRunOf id)).length

/-- The value a caller for `id` observes in this event, if any. -/
def obsVal (id : String) : AQEvent → Option Nat
  | .finishRun i v => if i == id then some v else none
  | .finishWait i v => if i == id then some v else none
  | .readDone i v => if i == id then some v else none
  | _ => none

/-- Some caller for `id` observes value `v` somewhere in the trace. -/
def obsIn (id : String) (v : Nat) (es : List AQEvent) : Bool :=
  es.any (fun e => obsVal id e == some v)

/-! ## `src/resolution_queue.py` : cycle detection

`Resolution.__eq__` compares `_key()` strings
(`"HOSTNAME:{hostname}/TYPE:{res_type}"`).  A resolution's position in
the dependency graph is its `spawned_by` ancestor chain (represented by
the chain's keys) together with the tree hanging from the chain's head
(each node's `_spawned_resolutions` children with their
`QUEUED`/`DEQUEUED` states). -/

/-- The per-child state stored in `_spawned_resolutions`. -/
inductive SpawnState where
  | queued
  | dequeued
deriving DecidableEq, Repr

mutual

/-- A resolution object with its `_spawned_resolutions` subtree. -/
inductive ResT where
  | node (hostname resType : String) (spawned : SpawnList)

/-- The values of a `_spawned_resolutions` dictionary, in insertion
order. -/
inductive SpawnList where
  | nil
  | cons (st : SpawnState) (child : ResT) (rest : SpawnList)

end

/-- `Resolution._key()`. -/
def resKeyStr (hostname resType : String) : String :=
  "HOSTNAME:" ++ hostname ++ "/TYPE:" ++ resType

/-- The `_key()` of a tree node. -/
def ResT.keyStr : ResT → String
  | .node h t _ => resKeyStr h t

mutual

/-- `Resolution._in_resolution_tree(other, head_found=True)`: the forward
walk over `_spawned_resolutions` entries still in state `QUEUED`,
checking `other == res` before recursing into the child. -/
def inTreeFwd (k : String) : ResT → Bool
  | .node _ _ sp => inTreeFwdList k sp

/-- The `for status, res in self._spawned_resolutions.values()` loop. -/
def inTreeFwdList (k : String) : SpawnList → Bool
  | .nil => false
  | .cons st c rest =>
    (decide (st = SpawnState.queued) && (c.keyStr == k || inTreeFwd k c))
    || inTreeFwdList k rest

end

/-- `Resolution._in_resolution_tree(other)` (entry call,
`head_found=False`): `ResolutionTree(self).contains(other)` checks the
strict `spawned_by` ancestor chain (given here by its keys), then the
forward walk starts from the chain's head (`self` itself when the chain
is empty). -/
def in_resolution_tree (ancestorKeys : List String) (head : ResT)
    (otherKey : String) : Bool :=
  ancestorKeys.contains otherKey || inTreeFwd otherKey head

/-- Observable outcome of one `Resolution._queue_resolution(other, queue)`
call. -/
structure QueueResOut where
  /-- The returned `ResolutionResponse`. -/
  resp : RResp
  /-- `self._spawned_resolutions` after the call (key to state). -/
  spawned : List (String × SpawnState)
  /-- Whether the call ever stored `("QUEUED", other)` under `other._key()`. -/
  recordedQueued : Bool
  /-- Whether `queue.add(other)` was invoked. -/
  enqueued : Bool
deriving DecidableEq, Repr

/-- Overwrite the state stored under `k` (Python dict assignment). -/
def setAssoc (m : List (String × SpawnState)) (k : String) (v : SpawnState) :
    List (String × SpawnState) :=
  match m with
  | [] => [(k, v)]
  | (k0, v0) :: rest =>
    if k0 == k then (k, v) :: rest else (k0, v0) :: setAssoc rest k v

/-- `Resolution._queue_resolution(other, queue)`.  `pSpawned` is the
caller's `_spawned_resolutions`; `addResp` is the response
`await queue.add(other)` eventually produces in the non-loop branch. -/
def queue_resolution (ancestorKeys : List String) (head : ResT)
    (pSpawned : List (String × SpawnState)) (otherKey : String)
    (addResp : RResp) : QueueResOut :=
  if in_resolution_tree ancestorKeys head otherKey then
    ⟨⟨RCode.loopDetected, RData.noData⟩, pSpawned, false, false⟩
  else
    ⟨addResp,
     setAssoc (setAssoc pSpawned otherKey SpawnState.queued) otherKey
       SpawnState.dequeued,
     true, true⟩

/-! ## `load_query_target_auth_block` of the comprehensive variants -/

/-- Observable outcome of one `load_query_target_auth_block` run. -/
structure LoadOut where
  /-- `(res_type, hostname)` of each resolution passed to
  `_queue_resolution`, in order. -/
  spawns : List (String × String)
  /-- `self.result` afterwards. -/
  result : Option RResp
  /-- Whether the method set `self.status = ResolutionStatus.DONE`. -/
  statusDone : Bool
  /-- `self.ready_for_querying` afterwards. -/
  readyForQuerying : Bool
  /-- `self.query_target_auth_block` afterwards (`res.data` is assigned
  unchecked, hence `RData`). -/
  target : Option RData
deriving DecidableEq, Repr

/-- `AuthNSResolution.load_query_target_auth_block`.  `r1` is the
response of the first `_queue_resolution` (comprehensive parent spawn),
`r2` the response of the Shallow retry; `r2` is consumed only when `r1`
reports `LOOP_DETECTED`. -/
def authns_load (hostname : String) (r1 r2 : RResp) : LoadOut :=
  if hostname = "." then
    ⟨[], none, false, true, some (RData.block get_root_nsr_block)⟩
  else
    let p := get_parent_domain hostname
    let sr : List (String × String) × RResp :=
      if r1.status = RCode.loopDetected
      then ([("AuthNS", p), ("ShallowAuthNS", p)], r2)
      else ([("AuthNS", p)], r1)
    if sr.2.status = RCode.error ∨ sr.2.status = RCode.loopDetected then
      ⟨sr.1, some sr.2, true, false, none⟩
    else
      ⟨sr.1, none, false, true, some sr.2.data⟩

/-- `IPResolution.load_query_target_auth_block`: same shape, but the
spawned resolution is an AuthNS resolution of the *same* hostname. -/
def ip_load (hostname : String) (r1 r2 : RResp) : LoadOut :=
  let sr : List (String × String) × RResp :=
    if r1.status = RCode.loopDetected
    then ([("AuthNS", hostname), ("ShallowAuthNS", hostname)], r2)
    else ([("AuthNS", hostname)], r1)
  if sr.2.status = RCode.error ∨ sr.2.status = RCode.loopDetected then
    ⟨sr.1, some sr.2, true, false, none⟩
  else
    ⟨sr.1, none, false, true, some sr.2.data⟩

/-! ## `resolve` of `AuthNSResolution` and `IPResolution` -/

/-- Keep the first occurrence of each string, dropping later duplicates
(the deterministic stand-in for building a Python `set` and listing it). -/
def dedupKeep : List String → List String
  | [] => []
  | s :: rest => s :: (dedupKeep rest).filter (fun t => !(t == s))

/-- `AuthNSResolution._resolve_cross_zone_nsrs(nsr_block, queue)`.  `cz`
is the oracle giving, for a nameserver hostname, the response of the
`ShallowIPResolution` spawned for it (`ResolutionResponseCode` and the IP
list payload). -/
def resolve_cross_zone_nsrs (block : NSRBlock)
    (cz : String → RCode × List String) : NSRBlock :=
  let queryable := block.nsrs.filter (fun n => n.ips.length > 0)
  let queryableNames := queryable.map (fun n => n.hostname)
  let missingNames :=
    dedupKeep ((block.nsrs.filter (fun n => n.ips.length = 0)).map
      (fun n => n.hostname))
  let trueMissing := missingNames.filter (fun h => !(queryableNames.contains h))
  let resolved := trueMissing.filterMap (fun nm =>
    let r := cz nm
    if r.1 = RCode.success ∧ r.2.length > 0 then some (⟨nm, r.2⟩ : NSR)
    else none)
  mkNSRBlock block.name (queryable ++ resolved)

/-- The relation map `drm` built inside `AuthNSResolution.resolve`. -/
def nsDrm (r : DNSResp) : DNSRelationMap := parse_dns_response_NS r

/-- The `closest_superdomain` call inside `AuthNSResolution.resolve`. -/
def nsClosest (hostname : String) (r : DNSResp) : Option (Option String) :=
  closest_superdomain hostname (hosts_with_nameservers (nsDrm r)) true

/-- The local `nsr_block` of `AuthNSResolution.resolve` after the
`None`-handling (lines 301-307): the block for the closest superdomain
if the relation map has one; otherwise the current target when the
response contains SOA records (empty non-terminal), else an empty
`NSRBlock(hostname)`.  `none` means `closest_superdomain` raised. -/
def nsBlockChoice (hostname : String) (target : NSRBlock) (r : DNSResp) :
    Option NSRBlock :=
  match nsClosest hostname r with
  | none => none
  | some cs =>
    some (match getNSRBlock (nsDrm r) cs with
      | some nb => nb
      | none =>
        if (drm_get_rtype_records (nsDrm r) "soa").length > 0 then target
        else ⟨hostname, []⟩)

/-- Observable outcome of one `AuthNSResolution.resolve` run. -/
structure AuthOut where
  /-- `self.result` afterwards. -/
  result : Option RResp
  /-- `self.auth_parent` afterwards. -/
  authParent : Option NSRBlock
  /-- `self.auth_child` afterwards. -/
  authChild : Option NSRBlock
  /-- `self.query_target_auth_block` afterwards. -/
  target : NSRBlock
  /-- `self.done_querying` afterwards. -/
  doneQuerying : Bool
  /-- The value of the local `nsr_block` after the `None`-handling, when
  the SUCCESS/NOERROR branch computed it. -/
  chosen : Option NSRBlock
deriving DecidableEq, Repr

/-- `AuthNSResolution.resolve(queue)`.  Inputs: the resolution's fields
before the call (`hostname`, `query_target_auth_block` as `target`,
`auth_parent`, `auth_child`, all other fields at their defaults with
`result = None`), the `QueryQueueResponse.data` map `qdata` for the
dispatched `QueryBlock(hostname, [NS, A], target)`, and the cross-zone
oracle `cz`.  Errors: `data['NS']` raises `KeyError` when absent;
`closest_superdomain` raises `IndexError` on an unnormalizable name. -/
def authns_resolve (hostname : String) (target : NSRBlock)
    (authParent authChild : Option NSRBlock)
    (qdata : List (String × DNSResp)) (cz : String → RCode × List String) :
    Except PyErr AuthOut :=
  if hostname = "." then
    .ok ⟨some ⟨RCode.success, RData.block get_root_nsr_block⟩,
         authParent, authChild, target, true, none⟩
  else if target.nsrs.length = 0 then
    .ok ⟨some ⟨RCode.warning, RData.block ⟨hostname, []⟩⟩,
         authParent, authChild, target, true, none⟩
  else
    match dataLookup qdata "NS" with
    | none => .error PyErr.keyError
    | some r =>
      if r.status = "SUCCESS" then
        if r.rcode = "NOERROR" then
          match nsBlockChoice hostname target r with
          | none => .error PyErr.indexError
          | some nb =>
            match authParent with
            | none =>
              let merged := nsrBlockMerge nb target "left"
              let brb := resolve_cross_zone_nsrs merged cz
              .ok ⟨none, some brb, authChild, brb, true, some nb⟩
            | some p =>
              match authChild with
              | none =>
                let brb := resolve_cross_zone_nsrs nb cz
                let ma := nsrBlockMerge p brb "outer"
                .ok ⟨some ⟨RCode.success, RData.block ma⟩,
                     some p, some brb, target, true, some nb⟩
              | some c =>
                .ok ⟨none, some p, some c, target, true, some nb⟩
        else
          .ok ⟨some ⟨RCode.error, RData.noData⟩,
               authParent, authChild, target, true, none⟩
      else
        .ok ⟨some ⟨RCode.warning, RData.block ⟨hostname, []⟩⟩,
             authParent, authChild, target, true, none⟩

/-- Observable outcome of one `IPResolution.resolve` run. -/
structure IPOut where
  /-- `self.result` afterwards (it is `None` on entry: the scheduler only
  invokes `resolve` on resolutions whose `result` is unset). -/
  result : Option RResp
  /-- `self.done_querying` afterwards. -/
  doneQuerying : Bool
  /-- The coroutine's return value (the scheduler wraps `resolve` in a
  task and never reads it). -/
  returned : Option RResp
deriving DecidableEq, Repr

/-- `IPResolution.resolve(queue)`.  `qdata` is the
`QueryQueueResponse.data` map for the dispatched
`QueryBlock(hostname, [A], target)`.  When the `A` rtype is absent the
method *returns* an ERROR response without touching `self.result` or
`self.done_querying` (which it has just reset to `False`).  When the
response has status SUCCESS but an rcode other than NOERROR, the local
`response_set` is read unassigned (`UnboundLocalError`). -/
def ip_resolve (hostname : String) (qdata : List (String × DNSResp)) :
    Except PyErr IPOut :=
  match dataLookup qdata "A" with
  | none => .ok ⟨none, false, some ⟨RCode.error, RData.noData⟩⟩
  | some r =>
    if r.status = "SUCCESS" then
      if r.rcode = "NOERROR" then
        let combined := sectionRtype r.answer "a" ++ sectionRtype r.authority "a"
          ++ sectionRtype r.additional "a"
        let responseSet :=
          (combined.filter (fun rr => rr.name == hostname)).map (fun rr => rr.rdata)
        .ok ⟨some ⟨RCode.success, RData.ips responseSet⟩, true, none⟩
      else .error PyErr.unboundLocal
    else
      .ok ⟨some ⟨RCode.warning, RData.ips []⟩, true, none⟩

/-! ## Specification-side definitions -/

/-- Canonical-form domain string (spec §3: lowercased, trailing dot, all
comparisons use this form): nonempty, fixed by `lower()`/`strip()`, and
ending in a dot, so `normalize_domain` is the identity on it. -/
def isNormalized (s : String) : Bool :=
  strLower s == s && pyStrip s == s && s.data.getLast? == some '.'

/-- The Boolean `is_superdomain` computes for already-normalized
arguments with `include_identical = True`. -/
def superBool (d s : String) : Bool :=
  if s == "." || (true && d == s) then true else strEndsWith d ("." ++ s)

/-- Stated from the spec's words (§8 law for `closest_superdomain`):
`s` is a suffix of `d` on a label boundary, where `d` itself counts and
the root `"."` is a superdomain of everything. -/
def specLabelSuffix (s d : String) : Prop :=
  s = d ∨ s = "." ∨ ∃ p, d.data = p ++ '.' :: s.data

/-- The state invariant of the `AsyncQueue` semantics: an id with an
in-flight marker has no cached value yet. -/
def aqSInv (s : AQState) : Prop :=
  ∀ i, s.active i = true → s.past i = none

/-! ## Lemmas about the AsyncQueue semantics -/

theorem aqStep_sinv {s s2 : AQState} {e : AQEvent} (hs : aqSInv s)
    (h : aqStep s e = some s2) : aqSInv s2 := by
  cases e with
  | startRun i =>
    simp only [aqStep] at h
    split at h
    · rename_i hg
      cases h
      intro j hj
      simp only at hj ⊢
      by_cases hji : j = i
      · subst hji; exact hg.2
      · rw [if_neg hji] at hj; exact hs j hj
    · cases h
  | finishRun i v =>
    simp only [aqStep] at h
    split at h
    · cases h
      intro j hj
      simp only at hj ⊢
      by_cases hji : j = i
      · rw [if_pos hji] at hj; cases hj
      · rw [if_neg hji] at hj; rw [if_neg hji]; exact hs j hj
    · cases h
  | startWait i =>
    simp only [aqStep] at h
    split at h
    · cases h; exact hs
    · cases h
  | finishWait i v =>
    simp only [aqStep] at h
    split at h
    · cases h; exact hs
    · cases h
  | readDone i v =>
    simp only [aqStep] at h
    split at h
    · cases h; exact hs
    · cases h

theorem aqStep_past {s s2 : AQState} {e : AQEvent} {i : String} {v : Nat}
    (hs : aqSInv s) (h : aqStep s e = some s2) (hp : s.past i = some v) :
    s2.past i = some v := by
  cases e with
  | startRun j =>
    simp only [aqStep] at h
    split at h
    · cases h; exact hp
    · cases h
  | finishRun j w =>
    simp only [aqStep] at h
    split at h
    · rename_i hg
      cases h
      simp only
      by_cases hij : i = j
      · subst hij; rw [hs i hg] at hp; cases hp
      · rw [if_neg hij]; exact hp
    · cases h
  | startWait j =>
    simp only [aqStep] at h
    split at h
    · cases h; exact hp
    · cases h
  | finishWait j w =>
    simp only [aqStep] at h
    split at h
    · cases h; exact hp
    · cases h
  | readDone j w =>
    simp only [aqStep] at h
    split at h
    · cases h; exact hp
    · cases h

theorem aqRun_past_mono {es : List AQEvent} {s s2 : AQState} {i : String}
    {v : Nat} (hs : aqSInv s) (h : aqRun s es = some s2)
    (hp : s.past i = some v) : s2.past i = some v := by
  induction es generalizing s with
  | nil =>
    simp only [aqRun] at h; cases h; exact hp
  | cons e es ih =>
    simp only [aqRun] at h
    cases he : aqStep s e with
    | none => rw [he] at h; cases h
    | some s1 =>
      rw [he] at h
      exact ih (aqStep_sinv hs he) h (aqStep_past hs he hp)


/-- The number of producer runs for `i` that a valid trace starting in
`s` can still contain: none once `i` is active or cached. -/
def runBudget (s : AQState) (i : String) : Nat :=
  if s.active i || (s.past i).isSome then 0 else 1

theorem aqStep_budget {s s1 : AQState} {e : AQEvent} {i : String}
    (h : aqStep s e = some s1) :
    (if isRunOf i e then 1 else 0) + runBudget s1 i ≤ runBudget s i := by
  cases e with
  | startRun j =>
    simp only [aqStep] at h
    split at h
    · rename_i hg
      cases h
      simp only [isRunOf, runBudget]
      by_cases hji : j = i
      · subst hji
        simp [hg.1, hg.2]
      · simp [hji, if_neg (Ne.symm hji)]
    · cases h
  | finishRun j v =>
    simp only [aqStep] at h
    split at h
    · rename_i hg
      cases h
      simp only [isRunOf, runBudget]
      by_cases hji : i = j
      · subst hji
        simp
      · simp [if_neg hji]
    · cases h
  | startWait j =>
    simp only [aqStep] at h
    split at h
    · cases h; simp [isRunOf]
    · cases h
  | finishWait j v =>
    simp only [aqStep] at h
    split at h
    · cases h; simp [isRunOf]
    · cases h
  | readDone j v =>
    simp only [aqStep] at h
    split at h
    · cases h; simp [isRunOf]
    · cases h

theorem aqRun_countRun {es : List AQEvent} {s s2 : AQState} {i : String}
    (h : aqRun s es = some s2) : countRun i es ≤ runBudget s i := by
  induction es generalizing s with
  | nil => simp [countRun]
  | cons e es ih =>
    simp only [aqRun] at h
    cases he : aqStep s e with
    | none => rw [he] at h; cases h
    | some s1 =>
      rw [he] at h
      have hcount : countRun i (e :: es)
          = (if isRunOf i e then 1 else 0) + countRun i es := by
        simp only [countRun, List.filter]
        cases hrn : isRunOf i e <;> simp [Nat.add_comm]
      rw [hcount]
      have hstep := aqStep_budget (i := i) he
      have htail := ih h
      omega

theorem aqRun_obs {es : List AQEvent} {s s2 : AQState} {i : String} {v : Nat}
    (hs : aqSInv s) (h : aqRun s es = some s2) (ho : obsIn i v es = true) :
    s2.past i = some v := by
  induction es generalizing s with
  | nil => simp [obsIn] at ho
  | cons e es ih =>
    simp only [aqRun] at h
    cases he : aqStep s e with
    | none => rw [he] at h; cases h
    | some s1 =>
      rw [he] at h
      have hs1 := aqStep_sinv hs he
      have ho2 : (obsVal i e == some v) = true ∨ obsIn i v es = true := by
        simp only [obsIn, List.any_cons, Bool.or_eq_true] at ho
        exact ho
      rcases ho2 with hoe | hot
      · have hoe2 : obsVal i e = some v := by
          exact beq_iff_eq.mp hoe
        have hp1 : s1.past i = some v := by
          cases e with
          | startRun j => simp [obsVal] at hoe2
          | startWait j => simp [obsVal] at hoe2
          | finishRun j w =>
            simp only [obsVal] at hoe2
            by_cases hji : j = i
            · rw [if_pos (by simp [hji])] at hoe2
              cases hoe2
              subst hji
              simp only [aqStep] at he
              split at he
              · cases he; simp
              · cases he
            · rw [if_neg (by simp [hji])] at hoe2
              cases hoe2
          | finishWait j w =>
            simp only [obsVal] at hoe2
            by_cases hji : j = i
            · rw [if_pos (by simp [hji])] at hoe2
              cases hoe2
              subst hji
              simp only [aqStep] at he
              split at he
              · rename_i hg; cases he; exact hg
              · cases he
            · rw [if_neg (by simp [hji])] at hoe2
              cases hoe2
          | readDone j w =>
            simp only [obsVal] at hoe2
            by_cases hji : j = i
            · rw [if_pos (by simp [hji])] at hoe2
              cases hoe2
              subst hji
              simp only [aqStep] at he
              split at he
              · rename_i hg; cases he; exact hg.2
              · cases he
            · rw [if_neg (by simp [hji])] at hoe2
              cases hoe2
        exact aqRun_past_mono hs1 h hp1
      · exact ih hs1 h hot

/-! ## Claim C1 -/

/-- Claim C1: for every call id, `AsyncQueue.queue_call` runs the
producer coroutine at most once over any interleaving of callers
(`countRun id es ≤ 1`): a caller that finds the id in-flight awaits the
event (`startWait`/`finishWait`), one that finds it finished never runs
its producer (`readDone` leaves the state untouched), and every caller
with that id is returned the identical stored value from `past_calls`
(all observed values in the trace coincide).  `es` ranges over all event
traces valid from the initial queue state. -/
theorem c1_queue_call_at_most_once_same_value (es : List AQEvent)
    (id : String) (v1 v2 : Nat) (h : (aqRun aqInit es).isSome = true) :
    countRun id es ≤ 1
    ∧ (obsIn id v1 es = true → obsIn id v2 es = true → v1 = v2) := by
  cases hr : aqRun aqInit es with
  | none => rw [hr] at h; cases h
  | some s2 =>
    have hs : aqSInv aqInit := by intro i hi; simp [aqInit] at hi
    constructor
    · have hb := aqRun_countRun (i := id) hr
      have : runBudget aqInit id = 1 := by simp [runBudget, aqInit]
      omega
    · intro h1 h2
      have e1 := aqRun_obs hs hr h1
      have e2 := aqRun_obs hs hr h2
      rw [e1] at e2
      cases e2
      rfl

/-- Witness for C1 on a concrete trace: one runner, one waiter and one
late reader for id `x`, plus an unrelated id `y`. -/
theorem c1_witness :
    (aqRun aqInit [AQEvent.startRun "x", AQEvent.startWait "x",
      AQEvent.finishRun "x" 7, AQEvent.finishWait "x" 7,
      AQEvent.readDone "x" 7, AQEvent.startRun "y",
      AQEvent.finishRun "y" 3]).isSome = true
    ∧ (countRun "x" [AQEvent.startRun "x", AQEvent.startWait "x",
        AQEvent.finishRun "x" 7, AQEvent.finishWait "x" 7,
        AQEvent.readDone "x" 7, AQEvent.startRun "y",
        AQEvent.finishRun "y" 3] ≤ 1
      ∧ (obsIn "x" 7 [AQEvent.startRun "x", AQEvent.startWait "x",
          AQEvent.finishRun "x" 7, AQEvent.finishWait "x" 7,
          AQEvent.readDone "x" 7, AQEvent.startRun "y",
          AQEvent.finishRun "y" 3] = true →
         obsIn "x" 7 [AQEvent.startRun "x", AQEvent.startWait "x",
          AQEvent.finishRun "x" 7, AQEvent.finishWait "x" 7,
          AQEvent.readDone "x" 7, AQEvent.startRun "y",
          AQEvent.finishRun "y" 3] = true → 7 = 7)) :=
  ⟨by decide,
   c1_queue_call_at_most_once_same_value _ "x" 7 7 (by decide)⟩

/-! ## Claim C2 -/

/-- Claim C2: when a resolution P spawns X, if X's key equals any key on
P's `spawned_by` ancestor chain, or the forward walk from the chain's
head over spawned-children entries still in state `QUEUED` finds X, then
`_queue_resolution` returns a `LOOP_DETECTED` response, X is never
recorded as `QUEUED` in P's `_spawned_resolutions` and `queue.add` is
never called — hence no resolution is enqueued as a descendant of an
equal ancestor. -/
theorem c2_loop_detected_not_enqueued (ancestorKeys : List String)
    (head : ResT) (pSpawned : List (String × SpawnState)) (xKey : String)
    (addResp : RResp)
    (h : xKey ∈ ancestorKeys ∨ inTreeFwd xKey head = true) :
    (queue_resolution ancestorKeys head pSpawned xKey addResp).resp.status
        = RCode.loopDetected
    ∧ (queue_resolution ancestorKeys head pSpawned xKey addResp).spawned
        = pSpawned
    ∧ (queue_resolution ancestorKeys head pSpawned xKey addResp).recordedQueued
        = false
    ∧ (queue_resolution ancestorKeys head pSpawned xKey addResp).enqueued
        = false := by
  have hin : in_resolution_tree ancestorKeys head xKey = true := by
    unfold in_resolution_tree
    rcases h with h | h
    · have hc : ancestorKeys.contains xKey = true := List.elem_eq_true_of_mem h
      rw [hc, Bool.true_or]
    · simp [h]
  unfold queue_resolution
  rw [if_pos hin]
  exact ⟨rfl, rfl, rfl, rfl⟩

/-- Witness for C2: a resolution whose ancestor chain already contains
`AuthNSResolution("com.")` tries to spawn that same resolution. -/
theorem c2_witness :
    ((resKeyStr "com." "AuthNS") ∈ [resKeyStr "com." "AuthNS"]
      ∨ inTreeFwd (resKeyStr "com." "AuthNS")
          (ResT.node "com." "AuthNS" SpawnList.nil) = true)
    ∧ ((queue_resolution [resKeyStr "com." "AuthNS"]
          (ResT.node "com." "AuthNS" SpawnList.nil) []
          (resKeyStr "com." "AuthNS")
          ⟨RCode.success, RData.noData⟩).resp.status = RCode.loopDetected
      ∧ (queue_resolution [resKeyStr "com." "AuthNS"]
          (ResT.node "com." "AuthNS" SpawnList.nil) []
          (resKeyStr "com." "AuthNS")
          ⟨RCode.success, RData.noData⟩).spawned = []
      ∧ (queue_resolution [resKeyStr "com." "AuthNS"]
          (ResT.node "com." "AuthNS" SpawnList.nil) []
          (resKeyStr "com." "AuthNS")
          ⟨RCode.success, RData.noData⟩).recordedQueued = false
      ∧ (queue_resolution [resKeyStr "com." "AuthNS"]
          (ResT.node "com." "AuthNS" SpawnList.nil) []
          (resKeyStr "com." "AuthNS")
          ⟨RCode.success, RData.noData⟩).enqueued = false) :=
  ⟨Or.inl (by simp),
   c2_loop_detected_not_enqueued _ _ _ _ _ (Or.inl (by simp))⟩

/-! ## Claim C3 -/

/-- Claim C3 (code bug): when the dispatched A query block's response
map has no `A` entry, `IPResolution.resolve` merely *returns* a
`ResolutionResponse(ERROR)` — a value the scheduler's spawned task
discards — and exits with `self.result` still unset and
`self.done_querying` just reset to `False`, so the resolution never
reaches DONE.  The claim (and spec) say the resolution's `result` is set
to the ERROR response and the resolution completes; the code does not.
Evaluated here at the concrete failing input: hostname
`"example.com."` with an empty response map. -/
theorem c3_missing_a_rtype_leaves_result_unset :
    ip_resolve "example.com." []
      = Except.ok ⟨none, false, some ⟨RCode.error, RData.noData⟩⟩ := by
  rfl

/-! ## Claim C10 -/

/-- Claim C10: `IPResolution.resolve` is not total on its response
domain: an `A` response with wire status SUCCESS and an rcode other than
NOERROR skips the assignment of the local `response_set` and then reads
it, so evaluation aborts with `UnboundLocalError` — behaviour the spec
never describes. -/
theorem c10_success_bad_rcode_unbound_local (hostname : String)
    (qdata : List (String × DNSResp)) (r : DNSResp)
    (hA : dataLookup qdata "A" = some r) (hst : r.status = "SUCCESS")
    (hrc : r.rcode ≠ "NOERROR") :
    ip_resolve hostname qdata = Except.error PyErr.unboundLocal := by
  unfold ip_resolve
  rw [show dataLookup qdata "A" = some r from hA]
  simp [hst, hrc]

/-- Witness for C10: an A response with status SUCCESS and rcode
NXDOMAIN. -/
theorem c10_witness :
    dataLookup [("A", (⟨"SUCCESS", "NXDOMAIN", [], [], []⟩ : DNSResp))] "A"
      = some ⟨"SUCCESS", "NXDOMAIN", [], [], []⟩
    ∧ (⟨"SUCCESS", "NXDOMAIN", [], [], []⟩ : DNSResp).status = "SUCCESS"
    ∧ (⟨"SUCCESS", "NXDOMAIN", [], [], []⟩ : DNSResp).rcode ≠ "NOERROR"
    ∧ ip_resolve "example.com."
        [("A", (⟨"SUCCESS", "NXDOMAIN", [], [], []⟩ : DNSResp))]
      = Except.error PyErr.unboundLocal :=
  ⟨rfl, rfl, by decide,
   c10_success_bad_rcode_unbound_local "example.com." _ _ rfl rfl (by decide)⟩

/-! ## Claim C4 -/

/-- Claim C4: for both comprehensive variants
(`AuthNSResolution.load_query_target_auth_block` spawning the parent
hostname, `IPResolution.load_query_target_auth_block` spawning its own
hostname), a `LOOP_DETECTED` first spawn response causes exactly one
retry with the Shallow variant of the same hostname; and whenever the
effective response (the retry's, or a non-loop first response) has code
ERROR or LOOP_DETECTED, the method stores that same response object in
`self.result`, sets `self.status = DONE`, and returns with
`ready_for_querying` still `False` — so the scheduler never moves the
resolution to ACTIVE and no query is issued. -/
theorem c4_loop_retry_and_error_propagation (hostname : String)
    (r1 r2 : RResp) (hne : hostname ≠ ".") :
    (r1.status = RCode.loopDetected →
      (authns_load hostname r1 r2).spawns
          = [("AuthNS", get_parent_domain hostname),
             ("ShallowAuthNS", get_parent_domain hostname)]
      ∧ (ip_load hostname r1 r2).spawns
          = [("AuthNS", hostname), ("ShallowAuthNS", hostname)])
    ∧ (∀ fin, fin = (if r1.status = RCode.loopDetected then r2 else r1) →
        fin.status = RCode.error ∨ fin.status = RCode.loopDetected →
          (authns_load hostname r1 r2).result = some fin
        ∧ (authns_load hostname r1 r2).statusDone = true
        ∧ (authns_load hostname r1 r2).readyForQuerying = false
        ∧ (ip_load hostname r1 r2).result = some fin
        ∧ (ip_load hostname r1 r2).statusDone = true
        ∧ (ip_load hostname r1 r2).readyForQuerying = false) := by
  constructor
  · intro hl
    unfold authns_load ip_load
    rw [if_neg hne]
    simp only [hl, if_true, ite_true]
    constructor
    · split <;> rfl
    · split <;> rfl
  · intro fin hfin herr
    subst hfin
    unfold authns_load ip_load
    rw [if_neg hne]
    by_cases hl : r1.status = RCode.loopDetected
    · simp [hl] at herr
      simp [hl, herr]
    · simp [hl] at herr
      simp [hl, herr]

/-- Witness for C4: `hostname = "a.example.com."`, first spawn answers
`LOOP_DETECTED`, the Shallow retry answers `ERROR`. -/
theorem c4_witness :
    ("a.example.com." : String) ≠ "."
    ∧ (((⟨RCode.loopDetected, RData.noData⟩ : RResp).status
          = RCode.loopDetected →
        (authns_load "a.example.com." ⟨RCode.loopDetected, RData.noData⟩
            ⟨RCode.error, RData.noData⟩).spawns
          = [("AuthNS", get_parent_domain "a.example.com."),
             ("ShallowAuthNS", get_parent_domain "a.example.com.")]
        ∧ (ip_load "a.example.com." ⟨RCode.loopDetected, RData.noData⟩
            ⟨RCode.error, RData.noData⟩).spawns
          = [("AuthNS", "a.example.com."),
             ("ShallowAuthNS", "a.example.com.")])
      ∧ (∀ fin, fin = (if (⟨RCode.loopDetected, RData.noData⟩ : RResp).status
              = RCode.loopDetected
            then (⟨RCode.error, RData.noData⟩ : RResp)
            else ⟨RCode.loopDetected, RData.noData⟩) →
          fin.status = RCode.error ∨ fin.status = RCode.loopDetected →
            (authns_load "a.example.com." ⟨RCode.loopDetected, RData.noData⟩
                ⟨RCode.error, RData.noData⟩).result = some fin
          ∧ (authns_load "a.example.com." ⟨RCode.loopDetected, RData.noData⟩
                ⟨RCode.error, RData.noData⟩).statusDone = true
          ∧ (authns_load "a.example.com." ⟨RCode.loopDetected, RData.noData⟩
                ⟨RCode.error, RData.noData⟩).readyForQuerying = false
          ∧ (ip_load "a.example.com." ⟨RCode.loopDetected, RData.noData⟩
                ⟨RCode.error, RData.noData⟩).result = some fin
          ∧ (ip_load "a.example.com." ⟨RCode.loopDetected, RData.noData⟩
                ⟨RCode.error, RData.noData⟩).statusDone = true
          ∧ (ip_load "a.example.com." ⟨RCode.loopDetected, RData.noData⟩
                ⟨RCode.error, RData.noData⟩).readyForQuerying = false)) :=
  ⟨by decide,
   c4_loop_retry_and_error_propagation "a.example.com." _ _ (by decide)⟩

/-! ## Claim C5 -/

/-- Claim C5: for every `AuthNSResolution` with `hostname ≠ "."`, if the
query target block contains zero NSRs, or the NS query response has wire
status TIMEOUT, then `resolve` sets `result` to code WARNING carrying an
empty `NSRBlock(hostname)` — in particular never code ERROR. -/
theorem c5_timeout_or_empty_target_warning (hostname : String)
    (target : NSRBlock) (authParent authChild : Option NSRBlock)
    (qdata : List (String × DNSResp)) (cz : String → RCode × List String)
    (hne : hostname ≠ ".")
    (hcase : target.nsrs.length = 0
      ∨ ∃ r, dataLookup qdata "NS" = some r ∧ r.status = "TIMEOUT") :
    ∃ o, authns_resolve hostname target authParent authChild qdata cz
        = Except.ok o
      ∧ o.result = some ⟨RCode.warning, RData.block ⟨hostname, []⟩⟩
      ∧ (∀ x, o.result = some x → x.status ≠ RCode.error) := by
  unfold authns_resolve
  rw [if_neg hne]
  by_cases hz : target.nsrs.length = 0
  · rw [if_pos hz]
    refine ⟨_, rfl, rfl, ?_⟩
    intro x hx
    cases hx
    simp
  · rw [if_neg hz]
    rcases hcase with hc | ⟨r, hr, hst⟩
    · exact absurd hc hz
    · rw [hr]
      have hss : ¬ (r.status = "SUCCESS") := by
        rw [hst]; decide
      dsimp only
      rw [if_neg hss]
      refine ⟨_, rfl, rfl, ?_⟩
      intro x hx
      cases hx
      simp

/-- Witness for C5: an empty target block for `"a.com."`. -/
theorem c5_witness :
    (("a.com." : String) ≠ "."
      ∧ ((⟨"p.", []⟩ : NSRBlock).nsrs.length = 0
        ∨ ∃ r, dataLookup ([] : List (String × DNSResp)) "NS" = some r
            ∧ r.status = "TIMEOUT"))
    ∧ ∃ o, authns_resolve "a.com." ⟨"p.", []⟩ none none []
          (fun _ => (RCode.success, [])) = Except.ok o
        ∧ o.result = some ⟨RCode.warning, RData.block ⟨"a.com.", []⟩⟩
        ∧ (∀ x, o.result = some x → x.status ≠ RCode.error) :=
  ⟨⟨by decide, Or.inl rfl⟩,
   c5_timeout_or_empty_target_warning "a.com." ⟨"p.", []⟩ none none _ _
     (by decide) (Or.inl rfl)⟩

/-! ## Claim C6 -/

/-- Claim C6: in `AuthNSResolution.resolve`, on a SUCCESS/NOERROR NS
response for which `getNSRBlock` at the closest superdomain yields
`None` (no superdomain of the hostname occurs in the relation map's
`hosts_with_nameservers`), the captured `nsr_block` is the current
`query_target_auth_block` itself when the relation map holds at least
one SOA record (empty non-terminal), and an empty `NSRBlock(hostname)`
when it holds none. -/
theorem c6_null_block_soa_fallback (hostname : String) (target : NSRBlock)
    (authParent authChild : Option NSRBlock)
    (qdata : List (String × DNSResp)) (cz : String → RCode × List String)
    (r : DNSResp) (hne : hostname ≠ ".") (hnz : ¬ target.nsrs.length = 0)
    (hr : dataLookup qdata "NS" = some r) (hst : r.status = "SUCCESS")
    (hrc : r.rcode = "NOERROR")
    (hnull : ∃ cs, nsClosest hostname r = some cs
      ∧ getNSRBlock (nsDrm r) cs = none) :
    ∃ o, authns_resolve hostname target authParent authChild qdata cz
        = Except.ok o
      ∧ o.chosen = some (if (drm_get_rtype_records (nsDrm r) "soa").length > 0
          then target else ⟨hostname, []⟩) := by
  obtain ⟨cs, hcs, hnb⟩ := hnull
  have hchoice : nsBlockChoice hostname target r
      = some (if (drm_get_rtype_records (nsDrm r) "soa").length > 0
          then target else ⟨hostname, []⟩) := by
    unfold nsBlockChoice
    rw [hcs]
    dsimp only
    rw [hnb]
  unfold authns_resolve
  rw [if_neg hne, if_neg hnz, hr]
  dsimp only
  rw [if_pos hst, if_pos hrc, hchoice]
  cases authParent with
  | none => exact ⟨_, rfl, rfl⟩
  | some p =>
    cases authChild with
    | none => exact ⟨_, rfl, rfl⟩
    | some c => exact ⟨_, rfl, rfl⟩

/-- Witness for C6: an NS response carrying only a SOA record, so the
relation map has no host with nameservers and the current target block
is reused. -/
theorem c6_witness :
    (("a.com." : String) ≠ "."
      ∧ ¬ (⟨"p.", [⟨"ns.p.", ["9.9.9.9"]⟩]⟩ : NSRBlock).nsrs.length = 0
      ∧ dataLookup [("NS", (⟨"SUCCESS", "NOERROR",
            [⟨"com.", "300", "in", "soa", "a.gtld-servers.net."⟩],
            [], []⟩ : DNSResp))] "NS"
          = some ⟨"SUCCESS", "NOERROR",
              [⟨"com.", "300", "in", "soa", "a.gtld-servers.net."⟩], [], []⟩
      ∧ (∃ cs, nsClosest "a.com." ⟨"SUCCESS", "NOERROR",
            [⟨"com.", "300", "in", "soa", "a.gtld-servers.net."⟩],
            [], []⟩ = some cs
          ∧ getNSRBlock (nsDrm ⟨"SUCCESS", "NOERROR",
              [⟨"com.", "300", "in", "soa", "a.gtld-servers.net."⟩],
              [], []⟩) cs = none))
    ∧ ∃ o, authns_resolve "a.com." ⟨"p.", [⟨"ns.p.", ["9.9.9.9"]⟩]⟩
          none none
          [("NS", ⟨"SUCCESS", "NOERROR",
            [⟨"com.", "300", "in", "soa", "a.gtld-servers.net."⟩], [], []⟩)]
          (fun _ => (RCode.success, [])) = Except.ok o
        ∧ o.chosen = some (if (drm_get_rtype_records
              (nsDrm ⟨"SUCCESS", "NOERROR",
                [⟨"com.", "300", "in", "soa", "a.gtld-servers.net."⟩],
                [], []⟩) "soa").length > 0
            then ⟨"p.", [⟨"ns.p.", ["9.9.9.9"]⟩]⟩ else ⟨"a.com.", []⟩) :=
  ⟨⟨by decide, by decide, rfl, ⟨none, by decide, rfl⟩⟩,
   c6_null_block_soa_fallback "a.com." ⟨"p.", [⟨"ns.p.", ["9.9.9.9"]⟩]⟩
     none none _ _ _ (by decide) (by decide) rfl rfl rfl
     ⟨none, by decide, rfl⟩⟩

/-! ## Claim C8 -/

/-- Claim C8 (code bug): `NSR.__eq__` is indeed determined by the pair
(lowercased hostname, sorted IP set) — two NSRs whose `_key()` strings
agree compare equal — but `NSR.__hash__` is *not* well defined: the body
`hash(self._key)` hashes the bound method `self._key` instead of calling
it, and CPython's method hash hashes the receiver, re-entering
`__hash__`.  Evaluation therefore never produces a value at any
recursion depth (`RecursionError` at runtime), shown here at the
concrete NSR `("NS1.example.com.", {"2.2.2.2", "1.1.1.1"})`. -/
theorem c8_nsr_hash_never_terminates :
    nsrEq ⟨"NS1.example.com.", ["2.2.2.2", "1.1.1.1"]⟩
        ⟨"ns1.example.com.", ["1.1.1.1", "2.2.2.2"]⟩ = true
    ∧ ∀ fuel : Nat,
        nsrHashEval fuel ⟨"NS1.example.com.", ["2.2.2.2", "1.1.1.1"]⟩
          = none := by
  constructor
  · decide
  · intro fuel
    induction fuel with
    | zero => rfl
    | succ n ih => simpa [nsrHashEval] using ih

/-! ## Claim C9 -/

/-- Counterexample for C9: the blank line `" \n"` does not normalize to
the root name `"."`; `normalize_domain` has no value on it (the Python
code raises `IndexError` indexing the empty stripped string). -/
theorem c9_counterexample :
    normalize_domain " \n" = none ∧ normalize_domain " \n" ≠ some "." := by
  constructor
  · rfl
  · decide

/-- Claim C9 as amended: for every input line that is blank or contains
only whitespace (its lowered, stripped form is empty), `normalize_domain`
raises `IndexError` (has no value) instead of returning the root name
`"."`, so the file loader fails on blank lines rather than mapping them
to the root hostname. -/
theorem c9_blank_line_raises (s : String)
    (h : pyStrip (strLower s) = "") : normalize_domain s = none := by
  unfold normalize_domain
  rw [h]
  rfl

/-- Witness for the amended C9 at the whitespace-only line `"  "`. -/
theorem c9_witness :
    pyStrip (strLower "  ") = "" ∧ normalize_domain "  " = none :=
  ⟨by decide, c9_blank_line_raises "  " (by decide)⟩

/-! ## Lemmas for claim C7 -/

theorem normalize_id {s : String} (h : isNormalized s = true) :
    normalize_domain s = some s := by
  unfold isNormalized at h
  simp only [Bool.and_eq_true, beq_iff_eq] at h
  obtain ⟨⟨h1, h2⟩, h3⟩ := h
  unfold normalize_domain
  rw [h1, h2, h3]
  simp

theorem is_superdomain_norm {d s : String} (hd : isNormalized d = true)
    (hs : isNormalized s = true) :
    is_superdomain d s true = some (superBool d s) := by
  unfold is_superdomain
  rw [normalize_id hd, normalize_id hs]
  rfl

theorem superBool_iff (d s : String) :
    superBool d s = true ↔ specLabelSuffix s d := by
  unfold superBool specLabelSuffix
  by_cases h1 : s = "."
  · simp [h1]
  · by_cases h2 : d = s
    · simp [h1, h2]
    · have hc : (s == "." || (true && (d == s))) = false := by
        simp [h1, h2]
      rw [hc]
      simp only [Bool.false_eq_true, if_false]
      unfold strEndsWith
      rw [decide_eq_true_eq]
      have hds : (("." ++ s).data) = '.' :: s.data := by
        rw [String.data_append]
        rfl
      rw [hds]
      constructor
      · intro hsuf
        obtain ⟨p, hp⟩ := hsuf
        exact Or.inr (Or.inr ⟨p, hp.symm⟩)
      · intro hspec
        rcases hspec with hspec | hspec | ⟨p, hp⟩
        · exact absurd hspec.symm h2
        · exact absurd hspec h1
        · exact ⟨p, hp.symm⟩

theorem filterSuper_norm {d : String} (hd : isNormalized d = true) :
    ∀ S : List String, (∀ s ∈ S, isNormalized s = true) →
      filterSuper d true S
        = some ((S.filter (fun s => superBool d s)).map
            (fun s => (s.length, s)))
  | [], _ => rfl
  | s :: rest, hS => by
    have hs := hS s (List.mem_cons_self s rest)
    have hrest := filterSuper_norm hd rest
      (fun t ht => hS t (List.mem_cons_of_mem s ht))
    unfold filterSuper
    rw [is_superdomain_norm hd hs]
    dsimp only
    rw [hrest]
    dsimp only
    cases hb : superBool d s <;> simp [List.filter_cons, hb]

theorem maxPair_mem : ∀ (xs : List (Nat × String)) (x : Nat × String),
    maxPair x xs ∈ x :: xs
  | [], _ => List.mem_singleton.mpr rfl
  | y :: ys, x => by
    have h := maxPair_mem ys (if pairGe x y then x else y)
    simp only [maxPair]
    rcases List.mem_cons.mp h with h | h
    · rw [h]
      split
      · exact List.mem_cons_self _ _
      · exact List.mem_cons_of_mem _ (List.mem_cons_self _ _)
    · exact List.mem_cons_of_mem _ (List.mem_cons_of_mem _ h)

theorem pairGe_true_le {x z : Nat × String} (h : pairGe x z = true) :
    z.1 ≤ x.1 := by
  unfold pairGe at h
  simp only [Bool.or_eq_true, Bool.and_eq_true, decide_eq_true_eq,
    beq_iff_eq] at h
  rcases h with h | ⟨h, _⟩
  · omega
  · omega

theorem pairGe_false_le {x z : Nat × String} (h : pairGe x z = false) :
    x.1 ≤ z.1 := by
  unfold pairGe at h
  simp only [Bool.or_eq_false_iff, Bool.and_eq_false_iff,
    decide_eq_false_iff_not] at h
  have := h.1
  omega

theorem maxPair_fst_ge : ∀ (xs : List (Nat × String)) (x y : Nat × String),
    y ∈ x :: xs → y.1 ≤ (maxPair x xs).1
  | [], x, y, hy => by
    rcases List.mem_cons.mp hy with h | h
    · rw [h]; exact le_refl _
    · cases h
  | z :: zs, x, y, hy => by
    simp only [maxPair]
    have hxw : x.1 ≤ (if pairGe x z then x else z).1 := by
      by_cases hg : pairGe x z = true
      · rw [if_pos hg]
      · rw [if_neg hg]
        exact pairGe_false_le (Bool.eq_false_iff.mpr hg)
    have hzw : z.1 ≤ (if pairGe x z then x else z).1 := by
      by_cases hg : pairGe x z = true
      · rw [if_pos hg]; exact pairGe_true_le hg
      · rw [if_neg hg]
    have hw := maxPair_fst_ge zs (if pairGe x z then x else z)
    rcases List.mem_cons.mp hy with h | h
    · rw [h]
      exact le_trans hxw (hw _ (List.mem_cons_self _ _))
    · rcases List.mem_cons.mp h with h2 | h2
      · rw [h2]
        exact le_trans hzw (hw _ (List.mem_cons_self _ _))
      · exact hw y (List.mem_cons_of_mem _ h2)

/-! ## Claim C7 -/

/-- Claim C7: for every canonical-form domain `d` and list `S` of
canonical-form candidate superdomains (spec §3 fixes the canonical form:
lowercased, trailing dot; all comparisons use it),
`closest_superdomain(d, S, true)` returns the longest element of `S`
that is a suffix of `d` on a label boundary — `d` itself counting, and
the root `"."` counting as a superdomain of everything — and returns
`None` when no element of `S` is such a suffix.  (Any two
maximal-length qualifying elements of `S` are literally equal, both
being character suffixes of `d` of the same length, so `the longest`
element is well defined and the length bound below pins it down.) -/
theorem c7_closest_superdomain_longest_label_suffix (d : String)
    (S : List String) (hd : isNormalized d = true)
    (hS : ∀ s ∈ S, isNormalized s = true) :
    ∃ r, closest_superdomain d S true = some r
      ∧ ((r = none ∧ ∀ s ∈ S, ¬ specLabelSuffix s d)
        ∨ (∃ v, r = some v ∧ v ∈ S ∧ specLabelSuffix v d
            ∧ ∀ s ∈ S, specLabelSuffix s d → s.length ≤ v.length)) := by
  unfold closest_superdomain
  rw [filterSuper_norm hd S hS]
  cases hF : (S.filter (fun s => superBool d s)).map
      (fun s => (s.length, s)) with
  | nil =>
    refine ⟨none, rfl, Or.inl ⟨rfl, ?_⟩⟩
    intro s hsS hspec
    have hsb : superBool d s = true := (superBool_iff d s).mpr hspec
    have hmem : s ∈ S.filter (fun s => superBool d s) :=
      List.mem_filter.mpr ⟨hsS, hsb⟩
    have hmem2 : ((s.length, s) : Nat × String)
        ∈ (S.filter (fun s => superBool d s)).map (fun s => (s.length, s)) :=
      List.mem_map_of_mem _ hmem
    rw [hF] at hmem2
    cases hmem2
  | cons x xs =>
    have hmem : maxPair x xs ∈ x :: xs := maxPair_mem xs x
    rw [← hF] at hmem
    obtain ⟨s0, hs0, heq⟩ := List.mem_map.mp hmem
    obtain ⟨hs0S, hs0b⟩ := List.mem_filter.mp hs0
    refine ⟨some (maxPair x xs).2, rfl,
      Or.inr ⟨(maxPair x xs).2, rfl, ?_, ?_, ?_⟩⟩
    · rw [← heq]
      exact hs0S
    · rw [← heq]
      exact (superBool_iff d s0).mp hs0b
    · intro s hsS hspec
      have hsb : superBool d s = true := (superBool_iff d s).mpr hspec
      have hmem2 : ((s.length, s) : Nat × String)
          ∈ (S.filter (fun s => superBool d s)).map (fun s => (s.length, s)) :=
        List.mem_map_of_mem _ (List.mem_filter.mpr ⟨hsS, hsb⟩)
      rw [hF] at hmem2
      have hle := maxPair_fst_ge xs x (s.length, s) hmem2
      have hfst : (maxPair x xs).1 = (maxPair x xs).2.length := by
        rw [← heq]
      exact le_trans hle (le_of_eq hfst)

/-- Witness for C7: `d = "a.b.com."` with candidates
`["com.", "b.com.", "x.org.", "."]`. -/
theorem c7_witness :
    (isNormalized "a.b.com." = true
      ∧ ∀ s ∈ ["com.", "b.com.", "x.org.", "."], isNormalized s = true)
    ∧ ∃ r, closest_superdomain "a.b.com."
          ["com.", "b.com.", "x.org.", "."] true = some r
        ∧ ((r = none
            ∧ ∀ s ∈ ["com.", "b.com.", "x.org.", "."],
                ¬ specLabelSuffix s "a.b.com.")
          ∨ (∃ v, r = some v ∧ v ∈ ["com.", "b.com.", "x.org.", "."]
              ∧ specLabelSuffix v "a.b.com."
              ∧ ∀ s ∈ ["com.", "b.com.", "x.org.", "."],
                  specLabelSuffix s "a.b.com." → s.length ≤ v.length)) :=
  ⟨⟨by decide, by decide⟩,
   c7_closest_superdomain_longest_label_suffix "a.b.com."
     ["com.", "b.com.", "x.org.", "."] (by decide) (by decide)⟩
